import Mathlib

/-!
Shallow embedding of the `attest` single-header C test framework
(`src/attest.h`) and proofs about its result-aggregation engine.

The embedding translates the engine's state machine into pure Lean
functions:

* `Status` mirrors the C enum `Status` (zero-initialised fields of
  `TestConfig`/`InstanceResult` therefore start as `missingExpectation`,
  the enum's first constructor).
* `Counters` mirrors the run-wide globals `total_tests`, `pass_count`,
  `fail_count`, `skip_count`, `empty_count`.
* the expectation engine (`report_success` / `report_failure`,
  lines 773-831) becomes fold steps over a list of expectation
  outcomes (`Bool`: condition truth),
* the attempt executor `attester` (lines 239-405) becomes a fuelled
  recursion over attempt indices that records per-attempt statuses,
  raises the same fatal configuration errors, and logs which hooks and
  bodies ran as an event trace,
* the parameterized aggregator `run_parameterize_test`
  (lines 407-585) with `any_instance` / `every_instance`
  (lines 847-865) becomes a verdict function over the
  `InstanceResult` slots,
* the registry pre-scan in `main` (lines 587-655) becomes
  `prescan`, and the value-rendering macros `SAVE_ONE_VALUE` /
  `SAVE_TWO_VALUE` / `SAVE_MESSAGE` (lines 1074-1242) become string
  functions over the measured formatted text.
-/

set_option maxRecDepth 4000

/-- The C enum `Status` (src/attest.h lines 94-98).  The first
constructor is the zero value used by zero-initialisation. -/
inductive Status
  | missingExpectation
  | passed
  | failed
deriving DecidableEq, Repr

/-- The run-wide counter globals (src/attest.h lines 183-187). -/
structure Counters where
  total_tests : Nat
  pass_count : Nat
  fail_count : Nat
  skip_count : Nat
  empty_count : Nat
deriving DecidableEq, Repr

/-- All counters zero, the state at process start. -/
def counters0 : Counters :=
  { total_tests := 0, pass_count := 0, fail_count := 0,
    skip_count := 0, empty_count := 0 }

/-- Exit code computed by `report_summary` (src/attest.h line 770):
`exit(fail_count || empty_count ? 1 : 0)`.  C truthiness of an `int`
is `≠ 0`. -/
def report_summary_exit_code (c : Counters) : Nat :=
  if c.fail_count ≠ 0 ∨ c.empty_count ≠ 0 then 1 else 0

/-!  Value rendering and truncation (src/attest.h lines 1074-1242).

Each `SAVE_*` macro first measures the formatted text with
`snprintf(NULL, 0, ...)` (the measure call returns the full formatted
length) and then either formats into the fixed buffer with
`snprintf(buf, ATTEST_VALUE_BUF, ...)` or overwrites the buffer with
the literal marker `"(truncated)"`.  We model a formatted value by the
string the format calls would produce; the measured size is its
length.  The negative-size error branch of `snprintf` cannot occur in
this model (lengths are `Nat`), and a measured size of zero leaves the
zero-initialised buffer untouched, i.e. the empty string. -/

/-- Buffer capacity `ATTEST_VALUE_BUF` (src/attest.h line 29). -/
def ATTEST_VALUE_BUF : Nat := 128

/-- The literal truncation marker written on overflow. -/
def truncation_marker : String := "(truncated)"

/-- `snprintf(buf, cap, ...)` stores at most `cap - 1` characters of
the formatted text plus a terminating NUL: a formatted value that does
not fit is silently cut to its first `cap - 1` characters. -/
def snprintf_store (cap : Nat) (s : String) : String :=
  if s.length < cap then s else String.mk (s.data.take (cap - 1))

/-- `SAVE_MESSAGE` (src/attest.h lines 1074-1090), restricted to the
stored `msg` text: measure the message; if it fits
(`msg_size < ATTEST_VALUE_BUF`) format it, otherwise store the
marker. -/
def save_message (cap : Nat) (msg_formatted : String) : String :=
  if 0 < msg_formatted.length then
    if msg_formatted.length < cap then snprintf_store cap msg_formatted
    else truncation_marker
  else ""

/-- The `actual_value` stored by `SAVE_ONE_VALUE`
(src/attest.h lines 1163-1176): measure `format(x)`; if
`actual_value_size < ATTEST_VALUE_BUF` format it, else store the
marker. -/
def save_one_value (cap : Nat) (actual_formatted : String) : String :=
  if 0 < actual_formatted.length then
    if actual_formatted.length < cap then snprintf_store cap actual_formatted
    else truncation_marker
  else ""

/-- The two value buffers filled by `SAVE_TWO_VALUE`. -/
structure TwoValueRecord where
  actual_value : String
  expected_value : String
deriving DecidableEq, Repr

/-- `SAVE_TWO_VALUE` (src/attest.h lines 1181-1242), restricted to the
two stored value buffers.  The actual value is guarded by its own
measured size `actual_value_size`; the expected value's store is
entered when `expected_value_size > 0` but — exactly as the source
reads at line 1234 — the fit test inside it compares
`actual_value_size < ATTEST_VALUE_BUF`, not `expected_value_size`. -/
def save_two_value (cap : Nat) (actual_formatted expected_formatted : String) :
    TwoValueRecord :=
  let actual_value :=
    if 0 < actual_formatted.length then
      if actual_formatted.length < cap then snprintf_store cap actual_formatted
      else truncation_marker
    else ""
  let expected_value :=
    if 0 < expected_formatted.length then
      if actual_formatted.length < cap then snprintf_store cap expected_formatted
      else truncation_marker
    else ""
  { actual_value := actual_value, expected_value := expected_value }

/-!  The attempt executor `attester` (src/attest.h lines 239-405).

A test body is modelled by the outcomes of the expectations it
executes: `body i` is the list of condition truth values of the
expectations run during attempt `i` (the C body itself is arbitrary
user code; all the engine observes of it are its `report_success` /
`report_failure` calls).  Hooks are modelled by presence flags plus an
event trace recording what ran and in which order.  Fatal
configuration errors (`exit(1)` paths) become `Except.error` carrying
the events that happened before the exit and the diagnostic raised. -/

/-- One observable action of a test run: a lifecycle hook or a body
execution (attempt index attached). -/
inductive Event
  | global_before_each
  | before_hook
  | before_each_case
  | test_body (i : Nat)
  | after_hook
  | after_each_case
  | global_after_each
deriving DecidableEq, Repr

/-- The fatal diagnostics the engine can raise
(`fprintf(stderr, ...); exit(1)` sites in src/attest.h). -/
inductive RunError
  | max_tests_reached
  | negative_attempts
  | attempts_too_large
  | missing_title
  | duplicate_title
  | use_before_each_case_instead
  | use_after_each_case_instead
deriving DecidableEq, Repr

/-- The slice of the C `TestConfig` (src/attest.h lines 100-123) that
drives the attempt executor.  `is_param` is `param_test != NULL`,
`has_before` / `has_after` are `before != NULL` / `after != NULL`,
`init_status` is the `status` field at entry (zero-initialised
registrations give `missingExpectation`). -/
structure TestConfig where
  skip : Bool
  disabled : Bool
  attempts : Nat
  is_param : Bool
  has_before : Bool
  has_after : Bool
  has_before_each_case : Bool
  has_after_each_case : Bool
  init_status : Status
  body : Nat → List Bool

/-- The global hook handlers registered by `BEFORE_EACH` /
`AFTER_EACH` (src/attest.h lines 204-209): presence flags. -/
structure Env where
  global_before_each : Bool
  global_after_each : Bool

/-- One expectation in a non-parameterized attempt, acting on the pair
(current `cfg.status`, failures recorded for this attempt):
`report_success` (line 777) unconditionally sets the status to
`PASSED`; `report_failure` (lines 815-831) sets it to `FAILED` and
appends a `FailureInfo` to the attempt's failure list. -/
def apply_expectation (s : Status × Nat) (cond : Bool) : Status × Nat :=
  if cond then (Status.passed, s.2) else (Status.failed, s.2 + 1)

/-- Running one attempt's body from status `st`: the expectations fire
in order; the failure list for the attempt starts empty. -/
def run_body (st : Status) (es : List Bool) : Status × Nat :=
  es.foldl apply_expectation (st, 0)

/-- `max_attempts = cfg.attempts ? cfg.attempts : 1`
(src/attest.h line 259). -/
def attempts_limit (cfg : TestConfig) : Nat :=
  if cfg.attempts = 0 then 1 else cfg.attempts

/-- The attempt loop of `attester` (src/attest.h lines 262-329),
recursing on the remaining attempt budget with `i` the current
attempt index and `st` the carried `cfg.status`.  Per iteration, in
source order: the global before-each hook (only when not
parameterized), the fatal `before` misuse check for parameterized
tests (lines 281-284), the `before` hook, the `before_each_case`
hook, the body, the fatal `after` misuse check (lines 305-308), the
`after` hook, the `after_each_case` hook, the global after-each hook;
then the attempt's status is recorded and the loop breaks when it is
`PASSED` or `MISSING_EXPECTATION`.  Returns the event trace, the
recorded (status, failure count) per attempt, and the final
`cfg.status`. -/
def attester_go (env : Env) (cfg : TestConfig) :
    Nat → Nat → Status →
    Except (List Event × RunError) (List Event × List (Status × Nat) × Status)
  | 0, _, st => .ok ([], [], st)
  | fuel + 1, i, st =>
    let pre : List Event :=
      if env.global_before_each && !cfg.is_param then [Event.global_before_each]
      else []
    if cfg.is_param && cfg.has_before then
      .error (pre, RunError.use_before_each_case_instead)
    else
      let pre2 := pre
        ++ (if cfg.has_before then [Event.before_hook] else [])
        ++ (if cfg.has_before_each_case then [Event.before_each_case] else [])
      let r := run_body st (cfg.body i)
      let pre3 := pre2 ++ [Event.test_body i]
      if cfg.is_param && cfg.has_after then
        .error (pre3, RunError.use_after_each_case_instead)
      else
        let evs := pre3
          ++ (if cfg.has_after then [Event.after_hook] else [])
          ++ (if cfg.has_after_each_case then [Event.after_each_case] else [])
          ++ (if env.global_after_each then [Event.global_after_each] else [])
        if r.1 = Status.passed ∨ r.1 = Status.missingExpectation then
          .ok (evs, [r], r.1)
        else
          match attester_go env cfg fuel (i + 1) r.1 with
          | .error e => .error (evs ++ e.1, e.2)
          | .ok rest => .ok (evs ++ rest.1, r :: rest.2.1, rest.2.2)

/-- `has_status` (src/attest.h lines 837-845): whether any recorded
status equals the target. -/
def has_status (target : Status) (statuses : List Status) : Bool :=
  statuses.any (fun s => decide (s = target))

/-- The observable outcome of running one descriptor through the
attempt executor. -/
structure AttesterResult where
  events : List Event
  counters : Counters
  final_status : Status
  attempt_statuses : List Status
  attempt_failure_counts : List Nat
  failure_blocks : Nat
deriving DecidableEq, Repr

/-- `attester` (src/attest.h lines 239-405).  A skipped descriptor
increments the skip counter and returns before any hook or body
(lines 253-256).  Otherwise the attempt loop runs; for a
parameterized per-case config the function returns without touching
the counters (lines 341-343; its `InstanceResult` slot updates are
modelled by `attester_param_case` below).  For a plain descriptor, if
any recorded attempt was `MISSING_EXPECTATION` the final status is
forced to `MISSING_EXPECTATION` (lines 345-352), and the final
dispatch increments exactly one of the pass/empty/fail counters; the
`FAILED` arm prints one failure block per recorded attempt
(lines 372-400), counted here in `failure_blocks`. -/
def attester (env : Env) (cfg : TestConfig) (c : Counters) :
    Except (List Event × RunError) AttesterResult :=
  if cfg.skip then
    .ok { events := [],
          counters := { c with skip_count := c.skip_count + 1 },
          final_status := cfg.init_status,
          attempt_statuses := [], attempt_failure_counts := [],
          failure_blocks := 0 }
  else
    match attester_go env cfg (attempts_limit cfg) 0 cfg.init_status with
    | .error e => .error e
    | .ok (evs, recs, stf) =>
      if cfg.is_param then
        .ok { events := evs, counters := c, final_status := stf,
              attempt_statuses := recs.map Prod.fst,
              attempt_failure_counts := recs.map Prod.snd,
              failure_blocks := 0 }
      else
        let final :=
          if has_status Status.missingExpectation (recs.map Prod.fst)
          then Status.missingExpectation else stf
        let c2 :=
          match final with
          | Status.passed => { c with pass_count := c.pass_count + 1 }
          | Status.missingExpectation => { c with empty_count := c.empty_count + 1 }
          | Status.failed => { c with fail_count := c.fail_count + 1 }
        .ok { events := evs, counters := c2, final_status := final,
              attempt_statuses := recs.map Prod.fst,
              attempt_failure_counts := recs.map Prod.snd,
              failure_blocks := if final = Status.failed then recs.length else 0 }

/-- The per-descriptor step of the run loop in `main`
(src/attest.h lines 670-688): a disabled descriptor is passed over
without any effect (lines 671-674); otherwise the descriptor runs and
`total_tests` is incremented afterwards (line 685). -/
def run_descriptor (env : Env) (cfg : TestConfig) (c : Counters) :
    Except (List Event × RunError) AttesterResult :=
  if cfg.disabled then
    .ok { events := [], counters := c, final_status := cfg.init_status,
          attempt_statuses := [], attempt_failure_counts := [],
          failure_blocks := 0 }
  else
    match attester env cfg c with
    | .error e => .error e
    | .ok r =>
      .ok { r with counters := { r.counters with
              total_tests := r.counters.total_tests + 1 } }

/-!  Parameterized-case result slots (src/attest.h lines 155-162 and
the `param_test` branches of `report_success` / `report_failure`,
lines 787-793 and 819-825). -/

/-- `InstanceResult` restricted to the fields the aggregation reads:
status, recorded failure count, and the `has_status` flag.  The slot
table is zeroed before a parameterized test, so a fresh slot is
`{ status := missingExpectation, failure_count := 0,
   has_status := false }`. -/
structure InstanceResult where
  status : Status
  failure_count : Nat
  has_status : Bool
deriving DecidableEq, Repr

/-- A zeroed `InstanceResult` slot. -/
def instance_zero : InstanceResult :=
  { status := Status.missingExpectation, failure_count := 0, has_status := false }

/-- One expectation inside a parameterized case, acting on the pair
(current `cfg.status`, the case's `InstanceResult` slot).  On success
(`report_success`, lines 773-794): status becomes `PASSED`; the slot
is written with a fresh `PASSED` result only when
`current_test->attempts > 0` is false and the slot's `has_status`
flag is still false.  On failure (`report_failure`, lines 815-831):
status becomes `FAILED` and the slot is always set to `FAILED` with
`has_status = true` and its failure count incremented. -/
def param_expectation (attempts : Nat) (s : Status × InstanceResult)
    (cond : Bool) : Status × InstanceResult :=
  if cond then
    (Status.passed,
      if attempts > 0 then s.2
      else if s.2.has_status then s.2
      else { status := Status.passed, failure_count := 0, has_status := true })
  else
    (Status.failed,
      { status := Status.failed, failure_count := s.2.failure_count + 1,
        has_status := true })

/-- Running one parameterized case's expectations from the
zero-initialised per-case config status and a zeroed slot. -/
def run_param_case (attempts : Nat) (es : List Bool) : Status × InstanceResult :=
  es.foldl (param_expectation attempts) (Status.missingExpectation, instance_zero)

/-- The slot a parameterized case leaves behind: after the case body,
`attester` overwrites the slot with a bare `MISSING_EXPECTATION`
record when the config status is still `MISSING_EXPECTATION`
(src/attest.h lines 336-339). -/
def attester_param_case (attempts : Nat) (es : List Bool) : InstanceResult :=
  let r := run_param_case attempts es
  if r.1 = Status.missingExpectation then
    { status := Status.missingExpectation, failure_count := 0, has_status := false }
  else r.2

/-- `any_instance` (src/attest.h lines 847-855): some slot among the
first `case_count` has the given status. -/
def any_instance (target : Status) (results : List InstanceResult) : Bool :=
  results.any (fun r => decide (r.status = target))

/-- `every_instance` (src/attest.h lines 857-865): every slot among
the first `case_count` has the given status. -/
def every_instance (target : Status) (results : List InstanceResult) : Bool :=
  results.all (fun r => decide (r.status = target))

/-- The whole-test verdict computed by `run_parameterize_test`
(src/attest.h lines 424-445): if every case passed the test passes;
otherwise, if any case is `MISSING_EXPECTATION` the test is reported
as a missing assertion; otherwise it fails. -/
def parameterize_verdict (results : List InstanceResult) : Status :=
  if every_instance Status.passed results then Status.passed
  else if any_instance Status.missingExpectation results then
    Status.missingExpectation
  else Status.failed

/-- The slots produced by running every case of a parameterized test
(the `title##_runner` loop dispatching each case through `attester`),
each case given by its expectation outcomes. -/
def run_parameterize_cases (attempts : Nat) (cases : List (List Bool)) :
    List InstanceResult :=
  cases.map (attester_param_case attempts)

/-!  The registry pre-scan in `main` (src/attest.h lines 587-655). -/

/-- `ATTEST_MAX_TESTS` (src/attest.h line 15). -/
def ATTEST_MAX_TESTS : Nat := 128

/-- `ATTEST_MAX_TEST_ATTEMPTS` (src/attest.h line 34). -/
def ATTEST_MAX_TEST_ATTEMPTS : Nat := 32

/-- The static fields of a registry entry that the pre-scan reads:
`test_title` (`NULL` modelled as `none`), the signed `attempts`
option, and whether `param_test` is set (for every entry registered
through the public macros this pointer is `NULL`; only the per-case
configs built inside `title##_runner` set it). -/
structure RegistryEntry where
  test_title : Option String
  attempts : Int
  has_param_test : Bool
deriving DecidableEq, Repr

/-- The pre-scan loop in `main` (src/attest.h lines 593-655),
carrying the `test_titles` array collected so far and `test_count`.
In source order per entry: the `ATTEST_MAX_TESTS` bound, negative
`attempts`, `attempts` above `ATTEST_MAX_TEST_ATTEMPTS`, a missing
title, and — when `param_test == NULL` — a title equal to any earlier
collected title; each failure aborts with the diagnostic.  On success
the title joins the collection. -/
def prescan_go : List RegistryEntry → List String → Nat →
    Except RunError (List String)
  | [], titles, _ => .ok titles
  | e :: rest, titles, count =>
    if count = ATTEST_MAX_TESTS then .error RunError.max_tests_reached
    else if e.attempts < 0 then .error RunError.negative_attempts
    else if e.attempts > (ATTEST_MAX_TEST_ATTEMPTS : Int) then
      .error RunError.attempts_too_large
    else
      match e.test_title with
      | none => .error RunError.missing_title
      | some t =>
        if ¬e.has_param_test ∧ t ∈ titles then .error RunError.duplicate_title
        else prescan_go rest (titles ++ [t]) (count + 1)

/-- The whole pre-scan, from an empty title collection. -/
def prescan (reg : List RegistryEntry) : Except RunError (List String) :=
  prescan_go reg [] 0

/-- A registered descriptor: the static entry the pre-scan checks
plus the run-time behavior the executor sees. -/
structure Descriptor where
  entry : RegistryEntry
  cfg : TestConfig

/-- The aggregate outcome of a full run. -/
structure RunResult where
  counters : Counters
  events : List Event
deriving DecidableEq, Repr

/-- The run loop of `main` (src/attest.h lines 670-688) over
non-parameterized descriptors, threading counters and concatenating
event traces. -/
def run_all (env : Env) : List TestConfig → Counters → List Event →
    Except (List Event × RunError) RunResult
  | [], c, evs => .ok { counters := c, events := evs }
  | cfg :: rest, c, evs =>
    match run_descriptor env cfg c with
    | .error e => .error (evs ++ e.1, e.2)
    | .ok r => run_all env rest r.counters (evs ++ r.events)

/-- `main` (src/attest.h lines 587-697): the pre-scan runs first,
starting from fresh counters and before any hook or body; only when
it succeeds does the run loop execute. -/
def attest_main (env : Env) (reg : List Descriptor) :
    Except (List Event × RunError) RunResult :=
  match prescan (reg.map (fun d => d.entry)) with
  | .error e => .error ([], e)
  | .ok _ => run_all env (reg.map (fun d => d.cfg)) counters0 []

/-!  Concrete configurations used to instantiate the theorems. -/

/-- A plain registered test with every option at its zero default. -/
def base_cfg : TestConfig :=
  { skip := false, disabled := false, attempts := 0, is_param := false,
    has_before := false, has_after := false, has_before_each_case := false,
    has_after_each_case := false, init_status := Status.missingExpectation,
    body := fun _ => [] }

/-- No global before-each or after-each handler registered. -/
def env0 : Env := { global_before_each := false, global_after_each := false }

/-- A skipped test. -/
def cfg_skip : TestConfig := { base_cfg with skip := true }

/-- An environment with a global before-each handler registered. -/
def env_gbe : Env := { global_before_each := true, global_after_each := false }

/-- A parameterized per-case config with a per-case before hook, one
passing expectation, and no per-test `before` option. -/
def cfg_param_global_only : TestConfig :=
  { base_cfg with
    is_param := true, has_before_each_case := true,
    body := fun _ => [true] }

/-- A parameterized per-case config that misuses the per-test
`before` option. -/
def cfg_param_with_before : TestConfig :=
  { base_cfg with is_param := true, has_before := true }

/-- A test whose single attempt records a failing then a passing
expectation. -/
def cfg_fail_then_pass : TestConfig :=
  { base_cfg with body := fun _ => [false, true] }

/-- A test with an empty body: its attempt stays
`MISSING_EXPECTATION`. -/
def cfg_empty_body : TestConfig := base_cfg

/-- A three-attempt test failing on attempts 1 and 2 and passing on
attempt 3. -/
def cfg_retry_pass : TestConfig :=
  { base_cfg with
    attempts := 3,
    body := fun i => if i < 2 then [false] else [true] }

/-- A three-attempt test failing on every attempt. -/
def cfg_retry_fail : TestConfig :=
  { base_cfg with attempts := 3, body := fun _ => [false] }

/-- The outcome of running `cfg_empty_body`: one attempt recorded as
`MISSING_EXPECTATION`, final status forced to missing, empty counter
bumped. -/
def c3_result : AttesterResult :=
  { events := [Event.test_body 0],
    counters := { counters0 with empty_count := 1 },
    final_status := Status.missingExpectation,
    attempt_statuses := [Status.missingExpectation],
    attempt_failure_counts := [0],
    failure_blocks := 0 }

/-- Registry with two non-parameterized entries sharing a title. -/
def reg_dup : List Descriptor :=
  [ { entry := { test_title := some "alpha", attempts := 0, has_param_test := false },
      cfg := base_cfg },
    { entry := { test_title := some "alpha", attempts := 0, has_param_test := false },
      cfg := cfg_fail_then_pass } ]

/-- C1: the process exit code computed by `report_summary` is `0`
exactly when both the failed-test count and the missing-assertion
count are zero, and `1` exactly otherwise
(src/attest.h line 770). -/
theorem c1_exit_code (c : Counters) :
    (report_summary_exit_code c = 0 ↔ (c.fail_count = 0 ∧ c.empty_count = 0)) ∧
    (report_summary_exit_code c = 1 ↔ ¬(c.fail_count = 0 ∧ c.empty_count = 0)) := by
  unfold report_summary_exit_code
  by_cases h : c.fail_count ≠ 0 ∨ c.empty_count ≠ 0
  · simp [h]
    tauto
  · simp [h]
    tauto

/-- C5: on the failing input the expected-value buffer keeps a
partially copied 127-character prefix instead of the truncation
marker: with `ATTEST_VALUE_BUF = 128`, an actual value rendering as a
single character and an expected value rendering to 128 characters,
`SAVE_TWO_VALUE` stores `xxxx…x` (127 characters) into
`expected_value` because line 1234 tests `actual_value_size` instead
of `expected_value_size`. -/
theorem c5_truncation_code_bug :
    (String.mk (List.replicate 128 'x')).length ≥ ATTEST_VALUE_BUF ∧
    (save_two_value ATTEST_VALUE_BUF "1"
        (String.mk (List.replicate 128 'x'))).expected_value =
      String.mk (List.replicate 127 'x') ∧
    (save_two_value ATTEST_VALUE_BUF "1"
        (String.mk (List.replicate 128 'x'))).expected_value ≠
      truncation_marker ∧
    (save_one_value ATTEST_VALUE_BUF
        (String.mk (List.replicate 128 'x'))) = truncation_marker := by
  refine ⟨by decide, ?_, by decide, by decide⟩
  decide

/-- C6: a descriptor with `skip = true` runs no hook and no body
(empty event trace), bumps the skip counter by one and the total
counter by one, and leaves every other counter and all recorded state
untouched (src/attest.h lines 253-256 and 670-688). -/
theorem c6_skip (env : Env) (cfg : TestConfig) (c : Counters)
    (hs : cfg.skip = true) (hd : cfg.disabled = false) :
    run_descriptor env cfg c =
      .ok { events := [],
            counters := { c with
                          skip_count := c.skip_count + 1,
                          total_tests := c.total_tests + 1 },
            final_status := cfg.init_status,
            attempt_statuses := [], attempt_failure_counts := [],
            failure_blocks := 0 } := by
  simp [run_descriptor, attester, hs, hd]

/-- Witness for C6 at a concrete skipped test. -/
theorem c6_skip_witness :
    run_descriptor env0 cfg_skip counters0 =
      .ok { events := [],
            counters := { counters0 with skip_count := 1, total_tests := 1 },
            final_status := Status.missingExpectation,
            attempt_statuses := [], attempt_failure_counts := [],
            failure_blocks := 0 } :=
  c6_skip env0 cfg_skip counters0 rfl rfl

/-- C2 fails on the code: a parameterized test whose first case
records a failing expectation and whose second case records none is
aggregated as `MISSING_EXPECTATION`, not `FAILED`, because
`run_parameterize_test` tests `any_instance(MISSING_EXPECTATION)`
before ever looking at failed cases (src/attest.h lines 424-445). -/
theorem c2_counterexample :
    parameterize_verdict (run_parameterize_cases 0 [[false], []]) =
      Status.missingExpectation ∧
    any_instance Status.failed (run_parameterize_cases 0 [[false], []]) = true := by
  decide

/-- If every slot passed then no slot is a missing expectation. -/
lemma every_passed_no_missing (results : List InstanceResult)
    (h : every_instance Status.passed results = true) :
    any_instance Status.missingExpectation results = false := by
  simp only [every_instance, List.all_eq_true, decide_eq_true_eq] at h
  rw [Bool.eq_false_iff]
  intro hany
  simp only [any_instance, List.any_eq_true, decide_eq_true_eq] at hany
  obtain ⟨r, hr, hmiss⟩ := hany
  have := h r hr
  rw [this] at hmiss
  cases hmiss

/-- C2 amended: the whole-test verdict is `Passed` iff every case is
`Passed`; it is `MissingExpectation` iff at least one case completed
with zero expectations (even when some other case failed); it is
`Failed` iff not every case passed and no case was empty
(src/attest.h lines 424-445). -/
theorem c2_amended_verdict (results : List InstanceResult) :
    (parameterize_verdict results = Status.passed ↔
      every_instance Status.passed results = true) ∧
    (parameterize_verdict results = Status.missingExpectation ↔
      any_instance Status.missingExpectation results = true) ∧
    (parameterize_verdict results = Status.failed ↔
      (every_instance Status.passed results = false ∧
       any_instance Status.missingExpectation results = false)) := by
  unfold parameterize_verdict
  by_cases hall : every_instance Status.passed results = true
  · have hmiss := every_passed_no_missing results hall
    simp [hall, hmiss]
  · rw [Bool.not_eq_true] at hall
    by_cases hany : any_instance Status.missingExpectation results = true
    · simp [hall, hany]
    · rw [Bool.not_eq_true] at hany
      simp [hall, hany]

/-- A slot that has recorded a failure keeps `FAILED` and
`has_status` through any further expectations of the same case:
`report_success` refuses to overwrite a slot whose `has_status` is
set, and `report_failure` re-asserts `FAILED`. -/
lemma param_failed_preserved (attempts : Nat) :
    ∀ (es : List Bool) (st : Status) (slot : InstanceResult),
      slot.status = Status.failed → slot.has_status = true →
      ((es.foldl (param_expectation attempts) (st, slot)).2.status = Status.failed ∧
       (es.foldl (param_expectation attempts) (st, slot)).2.has_status = true) := by
  intro es
  induction es with
  | nil => intro st slot h1 h2; exact ⟨h1, h2⟩
  | cons e rest ih =>
    intro st slot h1 h2
    cases e with
    | true =>
      have hstep : param_expectation attempts (st, slot) true = (Status.passed, slot) := by
        simp [param_expectation, h2]
      rw [List.foldl_cons, hstep]
      exact ih Status.passed slot h1 h2
    | false =>
      rw [List.foldl_cons]
      exact ih _ _ rfl rfl

/-- A case that runs at least one failing expectation ends with a
`FAILED` slot, whatever comes after. -/
lemma param_any_failure (attempts : Nat) :
    ∀ (es : List Bool) (st : Status) (slot : InstanceResult),
      false ∈ es →
      (es.foldl (param_expectation attempts) (st, slot)).2.status =
        Status.failed := by
  intro es
  induction es with
  | nil => intro st slot h; cases h
  | cons e rest ih =>
    intro st slot h
    cases e with
    | true =>
      have hrest : false ∈ rest := by
        cases h with
        | tail _ h2 => exact h2
      rw [List.foldl_cons]
      exact ih _ _ hrest
    | false =>
      rw [List.foldl_cons]
      exact (param_failed_preserved attempts rest _ _ rfl rfl).1

/-- Folding the expectations of a nonempty case never leaves the
config status at `MISSING_EXPECTATION`: every expectation resolves to
`PASSED` or `FAILED`. -/
lemma param_fold_status_ne_missing (attempts : Nat)
    (s : Status × InstanceResult) :
    ∀ es : List Bool, es ≠ [] →
      (List.foldl (param_expectation attempts) s es).1 ≠
        Status.missingExpectation := by
  intro es hne
  rcases List.eq_nil_or_concat es with h | ⟨l, e, h⟩
  · exact absurd h hne
  · subst h
    rw [List.concat_eq_append, List.foldl_append, List.foldl_cons, List.foldl_nil]
    cases e <;> simp [param_expectation]

/-- C10: a parameterized case's `InstanceResult` never leaves
`FAILED`: `report_success` writes a `PASSED` result only into a slot
whose `has_status` flag is still false, `report_failure` always sets
the slot to `FAILED`, and consequently a case with at least one
failing expectation is aggregated as `FAILED` regardless of any later
passing expectations in the same case (src/attest.h lines 787-793 and
819-825). -/
theorem c10_failed_sticky (attempts : Nat) (st : Status)
    (slot : InstanceResult) (es : List Bool)
    (h : slot.has_status = true) :
    (param_expectation attempts (st, slot) true).2 = slot ∧
    (∀ st2 slot2,
      (param_expectation attempts (st2, slot2) false).2.status = Status.failed ∧
      (param_expectation attempts (st2, slot2) false).2.has_status = true) ∧
    (∀ st2 slot2, slot2.status = Status.failed → slot2.has_status = true →
      ∀ e, (param_expectation attempts (st2, slot2) e).2.status = Status.failed) ∧
    (false ∈ es →
      (run_param_case attempts es).2.status = Status.failed ∧
      (attester_param_case attempts es).status = Status.failed) := by
  refine ⟨?_, ?_, ?_, ?_⟩
  · simp [param_expectation, h]
  · intro st2 slot2; constructor <;> simp [param_expectation]
  · intro st2 slot2 h1 h2 e
    cases e with
    | true => simp [param_expectation, h2, h1]
    | false => simp [param_expectation]
  · intro hmem
    have hfail := param_any_failure attempts es Status.missingExpectation
      instance_zero hmem
    have hne : es ≠ [] := List.ne_nil_of_mem hmem
    have hnm := param_fold_status_ne_missing attempts
      (Status.missingExpectation, instance_zero) es hne
    refine ⟨hfail, ?_⟩
    unfold attester_param_case
    rw [if_neg]
    · exact hfail
    · exact hnm

/-- Witness for C10 at a concrete case: failing then passing
expectations leave the slot `FAILED`. -/
theorem c10_failed_sticky_witness :
    ({ status := Status.failed, failure_count := 1, has_status := true } :
        InstanceResult).has_status = true ∧
    (run_param_case 0 [false, true]).2.status = Status.failed ∧
    (attester_param_case 0 [false, true]).status = Status.failed := by
  refine ⟨rfl, ?_⟩
  exact (c10_failed_sticky 0 Status.missingExpectation
    { status := Status.failed, failure_count := 1, has_status := true }
    [false, true] rfl).2.2.2 (by decide)

/-- Membership in a conditional singleton list. -/
lemma mem_ite_singleton_iff {α : Type} {a x : α} {p : Prop} [Decidable p] :
    (a ∈ (if p then [x] else ([] : List α))) ↔ (p ∧ a = x) := by
  by_cases hp : p <;> simp [hp]

/-- `attempts_limit` is always at least one attempt. -/
lemma attempts_limit_pos (cfg : TestConfig) : 0 < attempts_limit cfg := by
  unfold attempts_limit
  split <;> omega

/-- For a parameterized per-case config whose `before` hook is set,
the first loop iteration raises the fatal `before_each_case`
diagnostic before anything has run (src/attest.h lines 281-284). -/
lemma attester_go_param_before_error (env : Env) (cfg : TestConfig)
    (hp : cfg.is_param = true) (hb : cfg.has_before = true)
    (n i : Nat) (st : Status) :
    attester_go env cfg (n + 1) i st =
      .error ([], RunError.use_before_each_case_instead) := by
  simp [attester_go, hp, hb]

/-- For a parameterized per-case config the attempt loop never emits
the global before-each event: the handler call is guarded by
`!is_param_test` (src/attest.h line 277). -/
lemma attester_go_param_no_global_before (env : Env) (cfg : TestConfig)
    (hp : cfg.is_param = true) :
    ∀ fuel i st evs recs stf,
      attester_go env cfg fuel i st = .ok (evs, recs, stf) →
      Event.global_before_each ∉ evs := by
  intro fuel
  induction fuel with
  | zero =>
    intro i st evs recs stf h
    simp only [attester_go, Except.ok.injEq, Prod.mk.injEq] at h
    obtain ⟨h1, _, _⟩ := h
    subst h1
    simp
  | succ n ih =>
    intro i st evs recs stf h
    simp only [attester_go, hp, Bool.not_true, Bool.and_false,
      Bool.false_eq_true, if_false, Bool.true_and, List.nil_append] at h
    split at h
    · cases h
    · split at h
      · cases h
      · split at h
        · -- break on PASSED / MISSING_EXPECTATION
          simp only [Except.ok.injEq, Prod.mk.injEq] at h
          obtain ⟨h1, _, _⟩ := h
          subst h1
          intro hmem
          simp [mem_ite_singleton_iff] at hmem
        · -- FAILED: recurse
          split at h
          · cases h
          · rename_i heq
            simp only [Except.ok.injEq, Prod.mk.injEq] at h
            obtain ⟨h1, _, _⟩ := h
            subst h1
            intro hmem
            simp [mem_ite_singleton_iff] at hmem
            exact ih _ _ _ _ _ heq hmem

/-- C8 fails on the code: a parameterized per-case config run while a
global before-each handler is registered (and with its own per-case
before hook set, but no per-test `before`) completes normally — no
fatal usage error, the body runs, and the global before-each hook is
simply never invoked (its call is guarded by `!is_param_test`,
src/attest.h line 277). -/
theorem c8_counterexample :
    attester env_gbe cfg_param_global_only counters0 =
      .ok { events := [Event.before_each_case, Event.test_body 0],
            counters := counters0, final_status := Status.passed,
            attempt_statuses := [Status.passed],
            attempt_failure_counts := [0],
            failure_blocks := 0 } := by
  rfl

/-- C8 amended: the fatal usage error the engine actually reports at
the start of a parameterized test's run is triggered by the
descriptor's own per-test `before` hook (src/attest.h lines 281-284):
when it is set, `attester` exits with the `use before_each_case
instead` diagnostic before any hook or the body has run; and a global
before-each handler is never invoked for a parameterized config under
any outcome. -/
theorem c8_amended_param_before (env : Env) (cfg : TestConfig) (c : Counters)
    (hp : cfg.is_param = true) (hs : cfg.skip = false) :
    (cfg.has_before = true →
      attester env cfg c =
        .error ([], RunError.use_before_each_case_instead)) ∧
    (∀ r, attester env cfg c = .ok r →
      Event.global_before_each ∉ r.events) := by
  constructor
  · intro hb
    have hn : attempts_limit cfg - 1 + 1 = attempts_limit cfg := by
      have := attempts_limit_pos cfg
      omega
    have hgo := attester_go_param_before_error env cfg hp hb
      (attempts_limit cfg - 1) 0 cfg.init_status
    rw [hn] at hgo
    unfold attester
    rw [hs]
    simp [hgo]
  · intro r hr
    unfold attester at hr
    rw [hs] at hr
    simp only [Bool.false_eq_true, if_false] at hr
    cases hgo : attester_go env cfg (attempts_limit cfg) 0 cfg.init_status with
    | error e =>
      rw [hgo] at hr
      cases hr
    | ok v =>
      obtain ⟨evs, recs, stf⟩ := v
      rw [hgo] at hr
      rw [hp] at hr
      simp only [if_true] at hr
      injection hr with h2
      subst h2
      exact attester_go_param_no_global_before env cfg hp _ 0 _ evs recs stf hgo

/-- Witness for C8's amended theorem at a concrete misconfigured
parameterized test. -/
theorem c8_amended_witness :
    attester env_gbe cfg_param_with_before counters0 =
      .error ([], RunError.use_before_each_case_instead) :=
  (c8_amended_param_before env_gbe cfg_param_with_before counters0
    rfl rfl).1 rfl

/-- The status an attempt ends with is decided by its last
expectation: `report_success` and `report_failure` each overwrite the
current status unconditionally. -/
lemma run_body_last (st : Status) (es : List Bool) (e : Bool) :
    (run_body st (es ++ [e])).1 =
      (if e then Status.passed else Status.failed) := by
  unfold run_body
  rw [List.foldl_append, List.foldl_cons, List.foldl_nil]
  cases e <;> simp [apply_expectation]

/-- C3: for a non-parameterized descriptor, if any status recorded in
the per-attempt array is `MISSING_EXPECTATION`, the final status is
forced to `MISSING_EXPECTATION` whatever the other attempts did
(src/attest.h lines 345-352). -/
theorem c3_missing_attempt_wins (env : Env) (cfg : TestConfig)
    (c : Counters) (r : AttesterResult)
    (hp : cfg.is_param = false) (hs : cfg.skip = false)
    (hr : attester env cfg c = .ok r)
    (hm : Status.missingExpectation ∈ r.attempt_statuses) :
    r.final_status = Status.missingExpectation := by
  unfold attester at hr
  rw [hs] at hr
  simp only [Bool.false_eq_true, if_false] at hr
  cases hgo : attester_go env cfg (attempts_limit cfg) 0 cfg.init_status with
  | error e =>
    rw [hgo] at hr
    cases hr
  | ok v =>
    obtain ⟨evs, recs, stf⟩ := v
    rw [hgo] at hr
    rw [hp] at hr
    simp only [Bool.false_eq_true, if_false] at hr
    injection hr with h2
    subst h2
    simp only at hm ⊢
    have hhs : has_status Status.missingExpectation (recs.map Prod.fst) = true := by
      unfold has_status
      rw [List.any_eq_true]
      exact ⟨_, hm, by simp⟩
    simp [hhs]

/-- Witness for C3 at a test whose single attempt records no
expectation. -/
theorem c3_missing_attempt_wins_witness :
    attester env0 cfg_empty_body counters0 = .ok c3_result ∧
    c3_result.final_status = Status.missingExpectation :=
  ⟨rfl, c3_missing_attempt_wins env0 cfg_empty_body counters0 c3_result
    rfl rfl rfl (by decide)⟩

/-- C9: an attempt's resolved status equals the outcome of the last
expectation it executed (`report_success` unconditionally sets
`PASSED`, line 777); in particular a non-parameterized attempt whose
body records a failing then a passing expectation resolves `PASSED`,
increments the pass counter, and still holds one recorded
`FailureInfo` (src/attest.h lines 773-831 and 324-357). -/
theorem c9_last_expectation_wins (env : Env) (c : Counters) (st : Status)
    (es : List Bool) (e : Bool) (cfg : TestConfig)
    (h1 : cfg.skip = false) (h2 : cfg.is_param = false)
    (h3 : cfg.attempts = 0) (h4 : cfg.body 0 = [false, true]) :
    (run_body st (es ++ [e])).1 =
      (if e then Status.passed else Status.failed) ∧
    ∃ r, attester env cfg c = .ok r ∧
      r.final_status = Status.passed ∧
      r.counters = { c with pass_count := c.pass_count + 1 } ∧
      r.attempt_statuses = [Status.passed] ∧
      r.attempt_failure_counts = [1] := by
  refine ⟨run_body_last st es e, ?_⟩
  have hlim : attempts_limit cfg = 1 := by simp [attempts_limit, h3]
  unfold attester
  rw [h1, hlim]
  simp only [Bool.false_eq_true, if_false]
  simp only [attester_go, h2, h4, Bool.false_and, Bool.false_eq_true, if_false,
    run_body, List.foldl_cons, List.foldl_nil, apply_expectation, if_true]
  simp [has_status]

/-- Witness for C9 at a concrete fail-then-pass body. -/
theorem c9_last_expectation_wins_witness :
    (run_body Status.missingExpectation ([] ++ [true])).1 =
      (if true then Status.passed else Status.failed) ∧
    ∃ r, attester env0 cfg_fail_then_pass counters0 = .ok r ∧
      r.final_status = Status.passed ∧
      r.counters = { counters0 with pass_count := counters0.pass_count + 1 } ∧
      r.attempt_statuses = [Status.passed] ∧
      r.attempt_failure_counts = [1] :=
  c9_last_expectation_wins env0 counters0 Status.missingExpectation [] true
    cfg_fail_then_pass rfl rfl rfl rfl

/-- If every attempt the budget allows ends with a failing last
expectation, the loop exhausts the budget recording one `FAILED`
status per attempt. -/
lemma attester_go_all_fail (env : Env) (cfg : TestConfig)
    (hp : cfg.is_param = false) :
    ∀ fuel i st,
      (∀ k, k < fuel → ∃ es, cfg.body (i + k) = es ++ [false]) →
      ∃ evs recs,
        attester_go env cfg fuel i st =
          .ok (evs, recs, if fuel = 0 then st else Status.failed) ∧
        recs.length = fuel ∧ (∀ p ∈ recs, p.1 = Status.failed) := by
  intro fuel
  induction fuel with
  | zero =>
    intro i st h
    exact ⟨[], [], by simp [attester_go], rfl, by simp⟩
  | succ n ih =>
    intro i st h
    obtain ⟨es0, hes0⟩ := h 0 (Nat.succ_pos n)
    rw [Nat.add_zero] at hes0
    have hst : (run_body st (cfg.body i)).1 = Status.failed := by
      rw [hes0, run_body_last]
      simp
    obtain ⟨evs2, recs2, hgo2, hlen2, hall2⟩ :=
      ih (i + 1) (run_body st (cfg.body i)).1
        (fun k hk => by
          obtain ⟨es, hes⟩ := h (k + 1) (by omega)
          exact ⟨es, by rw [show i + 1 + k = i + (k + 1) by omega]; exact hes⟩)
    rw [hst] at hgo2
    simp only [ite_self] at hgo2
    simp only [attester_go, hp, Bool.false_and, Bool.false_eq_true, if_false,
      hst, reduceCtorEq, or_self, hgo2, Nat.succ_ne_zero, reduceIte]
    refine ⟨_, _, rfl, ?_, ?_⟩
    · simp [hlen2]
    · intro p hp2
      rcases List.mem_cons.mp hp2 with h2 | h2
      · rw [h2]; exact hst
      · exact hall2 p h2

/-- If the first `fuel - 1` attempts end with a failing last
expectation and the last allowed attempt ends with a passing one, the
loop runs all `fuel` attempts and ends `PASSED`, recording no
`MISSING_EXPECTATION` status. -/
lemma attester_go_fail_then_pass (env : Env) (cfg : TestConfig)
    (hp : cfg.is_param = false) :
    ∀ fuel i st, 0 < fuel →
      (∀ k, k + 1 < fuel → ∃ es, cfg.body (i + k) = es ++ [false]) →
      (∃ es, cfg.body (i + (fuel - 1)) = es ++ [true]) →
      ∃ evs recs,
        attester_go env cfg fuel i st = .ok (evs, recs, Status.passed) ∧
        recs.length = fuel ∧
        (∀ p ∈ recs, p.1 = Status.passed ∨ p.1 = Status.failed) := by
  intro fuel
  induction fuel with
  | zero =>
    intro i st h0
    exact absurd h0 (lt_irrefl 0)
  | succ n ih =>
    intro i st _ hfail hpass
    cases n with
    | zero =>
      obtain ⟨es0, hes0⟩ := hpass
      rw [Nat.add_zero] at hes0
      have hst : (run_body st (cfg.body i)).1 = Status.passed := by
        rw [hes0, run_body_last]
        simp
      simp only [attester_go, hp, Bool.false_and, Bool.false_eq_true, if_false,
        hst, eq_self_iff_true, true_or, if_true, reduceIte]
      refine ⟨_, _, rfl, rfl, ?_⟩
      intro p hp2
      rw [List.mem_singleton] at hp2
      rw [hp2]
      exact Or.inl hst
    | succ m =>
      obtain ⟨es0, hes0⟩ := hfail 0 (by omega)
      rw [Nat.add_zero] at hes0
      have hst : (run_body st (cfg.body i)).1 = Status.failed := by
        rw [hes0, run_body_last]
        simp
      obtain ⟨evs2, recs2, hgo2, hlen2, hall2⟩ :=
        ih (i + 1) (run_body st (cfg.body i)).1 (Nat.succ_pos m)
          (fun k hk => by
            obtain ⟨es, hes⟩ := hfail (k + 1) (by omega)
            exact ⟨es, by rw [show i + 1 + k = i + (k + 1) by omega]; exact hes⟩)
          (by
            obtain ⟨es, hes⟩ := hpass
            exact ⟨es, by
              rw [show i + 1 + (m + 1 - 1) = i + (m + 1 + 1 - 1) by omega]
              exact hes⟩)
      rw [hst] at hgo2
      obtain ⟨f, hf⟩ : ∃ f, f = m + 1 := ⟨m + 1, rfl⟩
      rw [← hf] at hgo2
      rw [show m + 1 + 1 = f + 1 by rw [hf]]
      simp only [attester_go, hp, Bool.false_and, Bool.false_eq_true, if_false,
        hst, reduceCtorEq, or_self, hgo2, reduceIte]
      refine ⟨_, _, rfl, ?_, ?_⟩
      · subst hf
        simp [hlen2]
      · intro p hp2
        rcases List.mem_cons.mp hp2 with h2 | h2
        · rw [h2]; exact Or.inr hst
        · exact hall2 p h2

/-- The loop breaks as soon as an attempt resolves `PASSED` or
`MISSING_EXPECTATION`: every recorded status except possibly the last
is `FAILED` (src/attest.h lines 326-328). -/
lemma attester_go_break (env : Env) (cfg : TestConfig) :
    ∀ fuel i st evs recs stf,
      attester_go env cfg fuel i st = .ok (evs, recs, stf) →
      ∀ p ∈ recs.dropLast, p.1 = Status.failed := by
  intro fuel
  induction fuel with
  | zero =>
    intro i st evs recs stf h p hpmem
    simp only [attester_go, Except.ok.injEq, Prod.mk.injEq] at h
    obtain ⟨_, h2, _⟩ := h
    subst h2
    simp at hpmem
  | succ n ih =>
    intro i st evs recs stf h p hpmem
    simp only [attester_go] at h
    split at h
    · cases h
    · split at h
      · cases h
      · split at h
        · simp only [Except.ok.injEq, Prod.mk.injEq] at h
          obtain ⟨_, h2, _⟩ := h
          subst h2
          simp at hpmem
        · rename_i hnotbreak
          split at h
          · cases h
          · rename_i rest heq
            obtain ⟨evs2, recs2, stf2⟩ := rest
            simp only [Except.ok.injEq, Prod.mk.injEq] at h
            obtain ⟨_, h2, _⟩ := h
            subst h2
            have hr1 : (run_body st (cfg.body i)).1 = Status.failed := by
              cases hX : (run_body st (cfg.body i)).1 with
              | missingExpectation => exact absurd (Or.inr hX) hnotbreak
              | passed => exact absurd (Or.inl hX) hnotbreak
              | failed => rfl
            cases hrecs : recs2 with
            | nil =>
              rw [hrecs] at hpmem
              simp at hpmem
            | cons x xs =>
              rw [hrecs] at hpmem
              rw [List.dropLast_cons₂] at hpmem
              rcases List.mem_cons.mp hpmem with h3 | h3
              · rw [h3]; exact hr1
              · rw [hrecs] at heq
                have := ih (i + 1) (run_body st (cfg.body i)).1
                  evs2 (x :: xs) stf2 heq p
                exact this h3

/-- If every recorded attempt resolved `PASSED` or `FAILED`, no
recorded status is `MISSING_EXPECTATION`. -/
lemma has_status_missing_false (recs : List (Status × Nat))
    (hall : ∀ p ∈ recs, p.1 = Status.passed ∨ p.1 = Status.failed) :
    has_status Status.missingExpectation (recs.map Prod.fst) = false := by
  rw [Bool.eq_false_iff]
  intro hcontra
  unfold has_status at hcontra
  rw [List.any_eq_true] at hcontra
  obtain ⟨s, hs, hdec⟩ := hcontra
  rw [decide_eq_true_eq] at hdec
  rw [List.mem_map] at hs
  obtain ⟨p, hp2, hp3⟩ := hs
  subst hdec
  rcases hall p hp2 with h | h <;> rw [h] at hp3 <;> simp at hp3

/-- The post-loop bookkeeping of `attester` for a non-parameterized
descriptor when no attempt was `MISSING_EXPECTATION`: the final
status is the loop's last status and exactly the matching counter is
incremented (src/attest.h lines 345-405). -/
lemma attester_wrap (env : Env) (cfg : TestConfig) (c : Counters)
    (hp : cfg.is_param = false) (hs : cfg.skip = false)
    (evs : List Event) (recs : List (Status × Nat)) (stf : Status)
    (hgo : attester_go env cfg (attempts_limit cfg) 0 cfg.init_status =
      .ok (evs, recs, stf))
    (hnomiss : has_status Status.missingExpectation (recs.map Prod.fst) = false) :
    attester env cfg c =
      .ok { events := evs,
            counters :=
              match stf with
              | Status.passed => { c with pass_count := c.pass_count + 1 }
              | Status.missingExpectation =>
                  { c with empty_count := c.empty_count + 1 }
              | Status.failed => { c with fail_count := c.fail_count + 1 },
            final_status := stf,
            attempt_statuses := recs.map Prod.fst,
            attempt_failure_counts := recs.map Prod.snd,
            failure_blocks :=
              if stf = Status.failed then recs.length else 0 } := by
  unfold attester
  rw [hs]
  simp only [Bool.false_eq_true, if_false, hgo, hp]
  simp [hnomiss]
  cases stf <;> rfl

/-- C4: for a non-parameterized descriptor with `attempts = N > 1`,
(a) failing the last expectation on attempts `1..N-1` and passing on
attempt `N` gives final status `PASSED` with exactly `N` recorded
attempt statuses and the pass counter bumped; (b) failing on every
attempt gives final status `FAILED`, `N` recorded statuses, `N`
printed failure blocks and the fail counter bumped; and (c) in every
run the loop breaks on `PASSED` / `MISSING_EXPECTATION`: every
recorded status before the last one is `FAILED`
(src/attest.h lines 258-329 and 372-400). -/
theorem c4_retry_semantics (env envC : Env) (cA cB cC : Counters) (N : Nat)
    (cfgA cfgB cfgC : TestConfig)
    (hN : 1 < N)
    (hpA : cfgA.is_param = false) (hsA : cfgA.skip = false)
    (haA : cfgA.attempts = N)
    (hfailA : ∀ k, k + 1 < N → ∃ es, cfgA.body k = es ++ [false])
    (hpassA : ∃ es, cfgA.body (N - 1) = es ++ [true])
    (hpB : cfgB.is_param = false) (hsB : cfgB.skip = false)
    (haB : cfgB.attempts = N)
    (hfailB : ∀ k, k < N → ∃ es, cfgB.body k = es ++ [false]) :
    (∃ r, attester env cfgA cA = .ok r ∧
      r.final_status = Status.passed ∧
      r.attempt_statuses.length = N ∧
      r.counters.pass_count = cA.pass_count + 1) ∧
    (∃ r, attester env cfgB cB = .ok r ∧
      r.final_status = Status.failed ∧
      r.attempt_statuses.length = N ∧
      r.failure_blocks = N ∧
      r.counters.fail_count = cB.fail_count + 1) ∧
    (∀ r, attester envC cfgC cC = .ok r →
      ∀ s ∈ r.attempt_statuses.dropLast, s = Status.failed) := by
  have hNz : N ≠ 0 := by omega
  refine ⟨?_, ?_, ?_⟩
  · have hlimA : attempts_limit cfgA = N := by
      unfold attempts_limit
      rw [haA, if_neg hNz]
    obtain ⟨evs, recs, hgo, hlen, hall⟩ :=
      attester_go_fail_then_pass env cfgA hpA N 0 cfgA.init_status (by omega)
        (fun k hk => by
          obtain ⟨es, hes⟩ := hfailA k hk
          exact ⟨es, by rw [Nat.zero_add]; exact hes⟩)
        (by
          obtain ⟨es, hes⟩ := hpassA
          exact ⟨es, by rw [Nat.zero_add]; exact hes⟩)
    rw [← hlimA] at hgo
    have hnomiss := has_status_missing_false recs hall
    refine ⟨_, attester_wrap env cfgA cA hpA hsA evs recs Status.passed
      hgo hnomiss, rfl, ?_, rfl⟩
    simp [hlen]
  · have hlimB : attempts_limit cfgB = N := by
      unfold attempts_limit
      rw [haB, if_neg hNz]
    obtain ⟨evs, recs, hgo, hlen, hall⟩ :=
      attester_go_all_fail env cfgB hpB N 0 cfgB.init_status
        (fun k hk => by
          obtain ⟨es, hes⟩ := hfailB k hk
          exact ⟨es, by rw [Nat.zero_add]; exact hes⟩)
    rw [if_neg hNz] at hgo
    rw [← hlimB] at hgo
    have hnomiss := has_status_missing_false recs
      (fun p hp2 => Or.inr (hall p hp2))
    refine ⟨_, attester_wrap env cfgB cB hpB hsB evs recs Status.failed
      hgo hnomiss, rfl, ?_, ?_, rfl⟩
    · simp [hlen]
    · simp [hlen]
  · intro r hr s hsmem
    unfold attester at hr
    by_cases hskip : cfgC.skip = true
    · rw [if_pos hskip] at hr
      injection hr with h2
      subst h2
      simp at hsmem
    · rw [if_neg hskip] at hr
      split at hr
      · exact Except.noConfusion hr
      · rename_i evs recs stf heq
        have hbreak := attester_go_break envC cfgC (attempts_limit cfgC) 0
          cfgC.init_status evs recs stf heq
        split at hr
        · simp only [Except.ok.injEq] at hr
          subst hr
          simp only at hsmem
          rw [← List.map_dropLast] at hsmem
          rw [List.mem_map] at hsmem
          obtain ⟨p, hp2, hp3⟩ := hsmem
          rw [← hp3]
          exact hbreak p hp2
        · simp only [Except.ok.injEq] at hr
          subst hr
          simp only at hsmem
          rw [← List.map_dropLast] at hsmem
          rw [List.mem_map] at hsmem
          obtain ⟨p, hp2, hp3⟩ := hsmem
          rw [← hp3]
          exact hbreak p hp2

/-- Witness for C4 at concrete three-attempt tests. -/
theorem c4_retry_semantics_witness :
    (∃ r, attester env0 cfg_retry_pass counters0 = .ok r ∧
      r.final_status = Status.passed ∧
      r.attempt_statuses.length = 3 ∧
      r.counters.pass_count = counters0.pass_count + 1) ∧
    (∃ r, attester env0 cfg_retry_fail counters0 = .ok r ∧
      r.final_status = Status.failed ∧
      r.attempt_statuses.length = 3 ∧
      r.failure_blocks = 3 ∧
      r.counters.fail_count = counters0.fail_count + 1) ∧
    (∀ r, attester env0 cfg_retry_fail counters0 = .ok r →
      ∀ s ∈ r.attempt_statuses.dropLast, s = Status.failed) :=
  c4_retry_semantics env0 env0 counters0 counters0 counters0 3
    cfg_retry_pass cfg_retry_fail cfg_retry_fail
    (by decide) rfl rfl rfl
    (fun k hk => ⟨[], by
      have h2 : k < 2 := by omega
      simp [cfg_retry_pass, base_cfg, h2]⟩)
    ⟨[], by decide⟩
    rfl rfl rfl
    (fun k hk => ⟨[], rfl⟩)

/-- If the pre-scan loop succeeds, no later non-parameterized entry
repeats a title already collected or carried by an earlier entry. -/
lemma prescan_go_ok_no_dup :
    ∀ (l : List RegistryEntry) (titles : List String) (count : Nat)
      (res : List String),
      prescan_go l titles count = .ok res →
      ∀ j (hj : j < l.length) (t : String),
        (l.get ⟨j, hj⟩).has_param_test = false →
        (l.get ⟨j, hj⟩).test_title = some t →
        t ∉ titles ∧
        ∀ i (hi : i < l.length), i < j →
          (l.get ⟨i, hi⟩).test_title ≠ some t := by
  intro l
  induction l with
  | nil =>
    intro titles count res h j hj
    exact absurd hj (Nat.not_lt_zero j)
  | cons e rest ih =>
    intro titles count res h j hj t hnp ht
    simp only [prescan_go] at h
    split at h
    · cases h
    · split at h
      · cases h
      · split at h
        · cases h
        · split at h
          · cases h
          · rename_i t0 hti
            split at h
            · cases h
            · rename_i hnodup
              cases j with
              | zero =>
                simp only [List.get] at hnp ht
                rw [hti] at ht
                injection ht with ht2
                subst ht2
                constructor
                · intro hmem
                  exact hnodup ⟨by simp [hnp], hmem⟩
                · intro i hi hij
                  exact absurd hij (Nat.not_lt_zero i)
              | succ k =>
                have hk : k < rest.length := by
                  simpa using hj
                obtain ⟨h1, h2⟩ := ih (titles ++ [t0]) (count + 1) res h k hk t
                  (by simpa using hnp) (by simpa using ht)
                constructor
                · intro hmem
                  exact h1 (List.mem_append_left _ hmem)
                · intro i hi hij
                  cases i with
                  | zero =>
                    simp only [List.get]
                    rw [hti]
                    intro hcontra
                    injection hcontra with hc2
                    apply h1
                    rw [← hc2]
                    exact List.mem_append_right _ (List.mem_singleton.mpr rfl)
                  | succ i2 =>
                    have hi2 : i2 < rest.length := by
                      simpa using hi
                    exact h2 i2 hi2 (by omega)

/-- C7: a registry holding two non-parameterized descriptors with the
same title makes `attest_main` abort during the pre-scan: the run
returns a fatal configuration error with an empty event trace — no
hook or body has run and no counter has changed
(src/attest.h lines 587-655). -/
theorem c7_duplicate_title_fatal (env : Env) (reg : List Descriptor)
    (i j : Nat) (hij : i < j) (hj : j < reg.length) (t : String)
    (hi_np : (reg.get ⟨i, by omega⟩).entry.has_param_test = false)
    (hj_np : (reg.get ⟨j, hj⟩).entry.has_param_test = false)
    (hi_t : (reg.get ⟨i, by omega⟩).entry.test_title = some t)
    (hj_t : (reg.get ⟨j, hj⟩).entry.test_title = some t) :
    ∃ e, attest_main env reg = .error ([], e) := by
  unfold attest_main
  cases hps : prescan (reg.map (fun d => d.entry)) with
  | error e =>
    exact ⟨e, rfl⟩
  | ok res =>
    exfalso
    have hj2 : j < (reg.map (fun d => d.entry)).length := by
      simpa using hj
    have hgetj : (reg.map (fun d => d.entry)).get ⟨j, hj2⟩ =
        (reg.get ⟨j, hj⟩).entry := by
      simp [List.get_eq_getElem, List.getElem_map]
    have hps2 : prescan_go (reg.map (fun d => d.entry)) [] 0 = .ok res := hps
    obtain ⟨_, hnodup⟩ := prescan_go_ok_no_dup
      (reg.map (fun d => d.entry)) [] 0 res hps2 j hj2 t
      (by rw [hgetj]; exact hj_np)
      (by rw [hgetj]; exact hj_t)
    have hi2 : i < (reg.map (fun d => d.entry)).length := by
      have : i < reg.length := by omega
      simpa using this
    have hgeti : (reg.map (fun d => d.entry)).get ⟨i, hi2⟩ =
        (reg.get ⟨i, by omega⟩).entry := by
      simp [List.get_eq_getElem, List.getElem_map]
    exact hnodup i hi2 hij (by rw [hgeti]; exact hi_t)

/-- Witness for C7 at a two-element registry sharing the title
`alpha`. -/
theorem c7_duplicate_title_fatal_witness :
    ∃ e, attest_main env0 reg_dup = .error ([], e) :=
  c7_duplicate_title_fatal env0 reg_dup 0 1 (by decide) (by decide) "alpha"
    rfl rfl rfl rfl
